import Mathlib

/-
Verification of the AbilitySystemAura gameplay code (Unreal Engine GAS project).

Shallow embedding conventions:
  - engine object pointers are Option over numeric object ids (none = nullptr);
  - float attribute values are embedded as rationals;
  - FGameplayTag values that range over arbitrary tags are embedded as Nat;
  - the fixed attribute tags of the project are a finite inductive type;
  - stateful actor code is embedded as explicit state-passing functions;
  - engine-supplied lookups (actor to ability system component, effect class
    to duration policy, avatar resolution) are fields of an explicit world
    record, so that dependence on engine state is visible in the types.
-/

namespace Aura

/-- Gameplay tags queried dynamically (input tags) are embedded as numbers. -/
abbrev GameplayTag := Nat

/-- Pointer target ids for UInputAction objects. -/
abbrev InputActionId := Nat

/-- FAuraInputAction from AuraInputConfig.h: a possibly-null pointer to a
UInputAction paired with a gameplay tag. -/
structure FAuraInputAction where
  inputAction : Option InputActionId
  inputTag : GameplayTag
deriving DecidableEq, Repr

/-- UAuraInputConfig::FindAbilityInputActionForTag (AuraInputConfig.cpp:6-23):
iterates AbilityInputActions; returns Action.InputAction for the first entry
whose InputAction pointer is non-null (pointer truthiness test) and whose
InputTag equals the queried tag; returns nullptr after the loop otherwise.
The bLogNotFound logging branch affects only the log, not the result, and the
method is const: the embedding therefore returns just the result. -/
def FindAbilityInputActionForTag : List FAuraInputAction → GameplayTag → Option InputActionId
  | [], _ => none
  | action :: rest, tag =>
    if action.inputAction.isSome && action.inputTag == tag then action.inputAction
    else FindAbilityInputActionForTag rest tag

/-- Ambient engine state that an operation could in principle read: a stand-in
record with observable engine-runtime data.  FindAbilityInputActionForTagInWorld
below is the same operation with this ambient state passed in explicitly; the
body of the C++ method reads none of it (it touches only AbilityInputActions
and the queried tag), which the definition makes visible. -/
structure EngineAmbientState where
  frameNumber : Nat
  worldSeconds : Rat
deriving DecidableEq, Repr

/-- UAuraInputConfig::FindAbilityInputActionForTag with the ambient engine
state made explicit.  The C++ body (AuraInputConfig.cpp:6-23) reads only the
config array and the tag argument, so the ambient state is not consulted. -/
def FindAbilityInputActionForTagInWorld (_ambient : EngineAmbientState)
    (actions : List FAuraInputAction) (tag : GameplayTag) : Option InputActionId :=
  FindAbilityInputActionForTag actions tag

end Aura

namespace Aura

/-- Ability system component ids (UAbilitySystemComponent pointers). -/
abbrev ASCId := Nat

/-- Actor ids (AActor pointers). -/
abbrev ActorId := Nat

/-- Gameplay effect class ids (TSubclassOf UGameplayEffect). -/
abbrev EffectClassId := Nat

/-- Data-table row ids for the message widget row lookup. -/
abbrev RowId := Nat

/-- Result of running an operation under a null-dereference-tracking
semantics: nullDeref marks that the operation dereferenced a null engine
object pointer; completes carries the value of a run that never did. -/
inductive RunResult (A : Type) where
  | nullDeref : RunResult A
  | completes (value : A) : RunResult A
deriving DecidableEq, Repr

/-- A UDataTable embedded as its rows, keyed by row name. -/
structure UDataTable where
  rows : List (GameplayTag × RowId)
deriving DecidableEq, Repr

/-- UDataTable::FindRow: engine lookup of a row by name (the tag name of the
queried gameplay tag), returning null when the row does not exist. -/
def UDataTable.findRow (dt : UDataTable) (rowName : GameplayTag) : Option RowId :=
  (dt.rows.find? (fun r => r.1 == rowName)).map (fun r => r.2)

/-- UOverlayWidgetController::GetDataTableRowByTag
(OverlayWidgetController.h:203-206): the body is a single statement
DataTable->FindRow(Tag.GetTagName(), "") performed with no IsValid or check
guard on DataTable, so a null DataTable argument is dereferenced.  The caller
BindCallbacksToDependencies passes MessageWidgetDataTable, a property whose
default value is nullptr (OverlayWidgetController.h:192). -/
def GetDataTableRowByTag (dataTable : Option UDataTable) (tagName : GameplayTag) :
    RunResult (Option RowId) :=
  match dataTable with
  | none => RunResult.nullDeref
  | some dt => RunResult.completes (dt.findRow tagName)

/-- Record of an effect application performed by
AAuraCharacterBase::ApplyEffectToSelf when both guards pass. -/
structure AppliedSelfEffect where
  asc : ASCId
  effectClass : EffectClassId
  level : Rat
  sourceObject : ActorId
deriving DecidableEq, Repr

/-- AAuraCharacterBase::ApplyEffectToSelf (AuraCharacterBase.cpp:42-53): the
ability system component and the effect class are both guarded with IsValid
before any dereference; when either guard fails the method silently does
nothing (embedded as completing with none), otherwise it builds a context
with the character as source object and applies the effect spec to the
component itself. -/
def ApplyEffectToSelf (self : ActorId) (asc : Option ASCId)
    (gameplayEffectClass : Option EffectClassId) (level : Rat) :
    RunResult (Option AppliedSelfEffect) :=
  match asc, gameplayEffectClass with
  | some a, some c => RunResult.completes (some ⟨a, c, level, self⟩)
  | _, _ => RunResult.completes none

/-- UAuraInputConfig::FindAbilityInputActionForTag under the
null-dereference-tracking semantics: the loop only tests the InputAction
pointer for null (no dereference) and compares tags by value, so no run
dereferences a null pointer; a failed search is signalled by returning
nullptr only. -/
def FindAbilityInputActionForTagRun (actions : List FAuraInputAction)
    (tag : GameplayTag) : RunResult (Option InputActionId) :=
  RunResult.completes (FindAbilityInputActionForTag actions tag)

/-- Claim C7: FindAbilityInputActionForTag returns the InputAction of the first
element of AbilityInputActions whose InputAction pointer is non-null and whose
InputTag equals the queried tag, and returns nullptr when no such element
exists; an entry whose tag matches but whose InputAction is null is skipped
rather than returned. -/
theorem findAbilityInputActionForTag_first_match (actions : List FAuraInputAction)
    (tag : GameplayTag) :
    FindAbilityInputActionForTag actions tag
      = (actions.find? (fun a => a.inputAction.isSome && a.inputTag == tag)).bind
          FAuraInputAction.inputAction := by
  induction actions with
  | nil => rfl
  | cons a rest ih =>
    by_cases h : (a.inputAction.isSome && a.inputTag == tag) = true
    · simp [FindAbilityInputActionForTag, List.find?, h]
    · simp [FindAbilityInputActionForTag, List.find?, h, ih]

/-- Claim C5, counterexample: the claim says no operation in the repository
computes its result as a pure deterministic function of its explicit
arguments alone.  UAuraInputConfig::FindAbilityInputActionForTag refutes it
at this concrete input: two runs with equal explicit inputs (the config array
and queried tag) but entirely different ambient engine states return the same
result. -/
theorem findAbilityInputActionForTag_ignores_engine_state_example :
    FindAbilityInputActionForTagInWorld ⟨0, 0⟩ [⟨some 7, 1⟩, ⟨none, 2⟩] 1
      = FindAbilityInputActionForTagInWorld ⟨1000, 123⟩ [⟨some 7, 1⟩, ⟨none, 2⟩] 1 := by
  rfl

/-- Claim C5, amended: while most operations of the repository read engine
state, UAuraInputConfig::FindAbilityInputActionForTag is a standalone
algorithmic core: its result is a pure deterministic function of its explicit
inputs (the AbilityInputActions array and the queried tag), identical across
any two ambient engine states. -/
theorem findAbilityInputActionForTag_pure (ambient ambient2 : EngineAmbientState)
    (actions : List FAuraInputAction) (tag : GameplayTag) :
    FindAbilityInputActionForTagInWorld ambient actions tag
      = FindAbilityInputActionForTagInWorld ambient2 actions tag := by
  rfl

/-- Claim C3, counterexample: the claim says every operation that dereferences
an engine object pointer first guards it with IsValid or check, making the
null-dereference branch unreachable.  GetDataTableRowByTag dereferences its
DataTable argument with no guard: at the concrete input nullptr (the default
value of MessageWidgetDataTable, which BindCallbacksToDependencies passes to
it) the run dereferences null. -/
theorem getDataTableRowByTag_null_deref :
    GetDataTableRowByTag none 42 = RunResult.nullDeref := by
  rfl

/-- Claim C3, amended: failure is signalled only by doing nothing or returning
null, and the other dereferencing operations named by the claim guard their
pointers so their null-dereference branch is unreachable; but the guard
discipline is not universal: GetDataTableRowByTag dereferences its DataTable
argument unguarded and is deref-safe only on non-null tables. -/
theorem pointer_guard_discipline (self : ActorId) (asc : Option ASCId)
    (cls : Option EffectClassId) (level : Rat) (actions : List FAuraInputAction)
    (tag : GameplayTag) (dt : UDataTable) (tagName : GameplayTag) :
    ApplyEffectToSelf self asc cls level ≠ RunResult.nullDeref
      ∧ ((asc = none ∨ cls = none) →
          ApplyEffectToSelf self asc cls level = RunResult.completes none)
      ∧ FindAbilityInputActionForTagRun actions tag ≠ RunResult.nullDeref
      ∧ GetDataTableRowByTag (some dt) tagName ≠ RunResult.nullDeref := by
  refine ⟨?_, ?_, ?_, ?_⟩
  · match asc, cls with
    | some a, some c => simp [ApplyEffectToSelf]
    | none, _ => simp [ApplyEffectToSelf]
    | some a, none => simp [ApplyEffectToSelf]
  · intro h
    match asc, cls with
    | some a, some c => rcases h with h | h <;> exact absurd h (by simp)
    | none, _ => simp [ApplyEffectToSelf]
    | some a, none => simp [ApplyEffectToSelf]
  · simp [FindAbilityInputActionForTagRun]
  · simp [GetDataTableRowByTag]

/-- Claim C3, witness for the amended theorem at concrete inputs. -/
theorem pointer_guard_discipline_witness :
    (ApplyEffectToSelf 1 (some 2) none 1 = RunResult.completes none)
      ∧ GetDataTableRowByTag (some ⟨[(5, 9)]⟩) 5 ≠ RunResult.nullDeref := by
  refine ⟨?_, ?_⟩
  · exact (pointer_guard_discipline 1 (some 2) none 1 [] 0 ⟨[]⟩ 0).2.1 (Or.inr rfl)
  · exact (pointer_guard_discipline 1 (some 2) none 1 [] 0 ⟨[(5, 9)]⟩ 5).2.2.2

end Aura

namespace Aura

/-- FWidgetControllerParams (AuraWidgetController.h:18-84): the four engine
object pointers handed to a widget controller. -/
structure FWidgetControllerParams where
  playerController : Option Nat
  playerState : Option Nat
  abilitySystemComponent : Option ASCId
  attributeSet : Option Nat
deriving DecidableEq, Repr

/-- A constructed widget controller object: its object identity, the params
set on it by SetWidgetControlParams, and how many times SetWidgetControlParams
and BindCallbacksToDependencies have run on it. -/
structure WidgetControllerObject where
  objId : Nat
  params : FWidgetControllerParams
  setParamsCount : Nat
  bindCount : Nat
deriving DecidableEq, Repr

/-- AAuraHUD state: the two cached widget-controller pointers
(AuraHUD.h, both default null) and a supply of fresh object ids for
NewObject. -/
structure AuraHUDState where
  overlayWidgetController : Option WidgetControllerObject
  attributeMenuWidgetController : Option WidgetControllerObject
  nextObjId : Nat
deriving DecidableEq, Repr

/-- AAuraHUD::GetOverlayWidgetController (AuraHUD.cpp:10-20): when the cached
pointer fails IsValid, construct the controller with NewObject, set its
widget-controller params from the argument, bind its callbacks, and cache it;
in every case return the cached pointer. -/
def GetOverlayWidgetController (s : AuraHUDState) (wcParams : FWidgetControllerParams) :
    WidgetControllerObject × AuraHUDState :=
  match s.overlayWidgetController with
  | none =>
    let c : WidgetControllerObject :=
      { objId := s.nextObjId, params := wcParams, setParamsCount := 1, bindCount := 1 }
    (c, { s with overlayWidgetController := some c, nextObjId := s.nextObjId + 1 })
  | some c => (c, s)

/-- AAuraHUD::GetAttributeMenuWidgetController (AuraHUD.cpp:22-32): identical
caching pattern on the attribute-menu controller field. -/
def GetAttributeMenuWidgetController (s : AuraHUDState) (wcParams : FWidgetControllerParams) :
    WidgetControllerObject × AuraHUDState :=
  match s.attributeMenuWidgetController with
  | none =>
    let c : WidgetControllerObject :=
      { objId := s.nextObjId, params := wcParams, setParamsCount := 1, bindCount := 1 }
    (c, { s with attributeMenuWidgetController := some c, nextObjId := s.nextObjId + 1 })
  | some c => (c, s)

/-- Claim C9: both widget-controller getters are idempotent.  The first call
on an empty cache constructs the controller, sets its params from the first
call arguments and binds callbacks exactly once; every later call returns the
same cached object with the HUD state fully unchanged (so nothing is
re-constructed, re-set or re-bound), regardless of the params passed to the
later call. -/
theorem hud_widget_controller_getters_idempotent (s : AuraHUDState)
    (p1 p2 : FWidgetControllerParams) :
    ((GetOverlayWidgetController s p1).2.overlayWidgetController
        = some (GetOverlayWidgetController s p1).1
      ∧ (s.overlayWidgetController = none →
          ((GetOverlayWidgetController s p1).1.params = p1
            ∧ (GetOverlayWidgetController s p1).1.setParamsCount = 1
            ∧ (GetOverlayWidgetController s p1).1.bindCount = 1))
      ∧ GetOverlayWidgetController (GetOverlayWidgetController s p1).2 p2
          = ((GetOverlayWidgetController s p1).1, (GetOverlayWidgetController s p1).2))
    ∧ ((GetAttributeMenuWidgetController s p1).2.attributeMenuWidgetController
        = some (GetAttributeMenuWidgetController s p1).1
      ∧ (s.attributeMenuWidgetController = none →
          ((GetAttributeMenuWidgetController s p1).1.params = p1
            ∧ (GetAttributeMenuWidgetController s p1).1.setParamsCount = 1
            ∧ (GetAttributeMenuWidgetController s p1).1.bindCount = 1))
      ∧ GetAttributeMenuWidgetController (GetAttributeMenuWidgetController s p1).2 p2
          = ((GetAttributeMenuWidgetController s p1).1,
              (GetAttributeMenuWidgetController s p1).2)) := by
  constructor
  · match h : s.overlayWidgetController with
    | none => simp [GetOverlayWidgetController, h]
    | some c => simp [GetOverlayWidgetController, h]
  · match h : s.attributeMenuWidgetController with
    | none => simp [GetAttributeMenuWidgetController, h]
    | some c => simp [GetAttributeMenuWidgetController, h]

/-- Claim C9, witness: the idempotence theorem applied to an empty HUD cache
and two different params records. -/
theorem hud_widget_controller_getters_idempotent_witness :
    (GetOverlayWidgetController ⟨none, none, 0⟩ ⟨some 1, some 2, some 3, some 4⟩).1.params
        = ⟨some 1, some 2, some 3, some 4⟩
      ∧ (GetOverlayWidgetController ⟨none, none, 0⟩
          ⟨some 1, some 2, some 3, some 4⟩).1.setParamsCount = 1
      ∧ (GetOverlayWidgetController ⟨none, none, 0⟩
          ⟨some 1, some 2, some 3, some 4⟩).1.bindCount = 1 := by
  exact (hud_widget_controller_getters_idempotent ⟨none, none, 0⟩
    ⟨some 1, some 2, some 3, some 4⟩ ⟨none, none, none, none⟩).1.2.1 rfl

end Aura

namespace Aura

/-- EEffectApplicationPolicy from AuraEffectActor.h:16-22. -/
inductive EEffectApplicationPolicy where
  | ApplyOnOverlap
  | ApplyOnEndOverlap
  | DoNotApply
deriving DecidableEq, Repr

/-- EEffectRemovalPolicy from AuraEffectActor.h:31-36. -/
inductive EEffectRemovalPolicy where
  | RemoveOnEndOverlap
  | DoNotRemove
deriving DecidableEq, Repr

/-- EGameplayEffectDurationType: the engine duration policy of a gameplay
effect class definition. -/
inductive EGameplayEffectDurationType where
  | Instant
  | HasDuration
  | Infinite
deriving DecidableEq, Repr

/-- FActiveGameplayEffectHandle ids handed out by
ApplyGameplayEffectSpecToSelf. -/
abbrev EffectHandle := Nat

/-- Engine-side world the effect actor consults:
UAbilitySystemBlueprintLibrary::GetAbilitySystemComponent composed with the
IsValid test (none when the target has no valid component), and the duration
policy recorded in each effect class definition. -/
structure EffectWorld where
  ascOf : ActorId → Option ASCId
  durationPolicyOf : EffectClassId → EGameplayEffectDurationType

/-- AAuraEffectActor state: the six configured effect class / application
policy properties, the infinite-effect removal policy, the ActiveEffectHandles
map (an association list from handle to the target component it was applied
to), and a supply of fresh handles standing for the engine handle allocator. -/
structure AuraEffectActorState where
  instantGameplayEffectClass : Option EffectClassId
  instantEffectApplicationPolicy : EEffectApplicationPolicy
  durationGameplayEffectClass : Option EffectClassId
  durationEffectApplicationPolicy : EEffectApplicationPolicy
  infiniteGameplayEffectClass : Option EffectClassId
  infiniteEffectApplicationPolicy : EEffectApplicationPolicy
  infiniteEffectRemovalPolicy : EEffectRemovalPolicy
  activeEffectHandles : List (EffectHandle × ASCId)
  nextHandle : EffectHandle
deriving DecidableEq, Repr

/-- TMap::Add on the ActiveEffectHandles map: replaces any entry with the same
key, then stores the new pair. -/
def tmapAdd (m : List (EffectHandle × ASCId)) (k : EffectHandle) (v : ASCId) :
    List (EffectHandle × ASCId) :=
  m.filter (fun p => p.1 != k) ++ [(k, v)]

/-- AAuraEffectActor::ApplyEffectToTarget (AuraEffectActor.cpp:78-100): when
the effect class is set and the target has a valid ability system component,
make and apply an outgoing spec (consuming a fresh active-effect handle), and
add the handle with the target component to ActiveEffectHandles exactly when
the applied definition has Infinite duration policy and
InfiniteEffectRemovalPolicy is RemoveOnEndOverlap. -/
def ApplyEffectToTarget (w : EffectWorld) (s : AuraEffectActorState)
    (inTargetActor : ActorId) (inGameplayEffectClass : Option EffectClassId) :
    AuraEffectActorState :=
  match inGameplayEffectClass with
  | none => s
  | some cls =>
    match w.ascOf inTargetActor with
    | none => s
    | some targetASC =>
      if w.durationPolicyOf cls = EGameplayEffectDurationType.Infinite
          ∧ s.infiniteEffectRemovalPolicy = EEffectRemovalPolicy.RemoveOnEndOverlap then
        { s with
            activeEffectHandles := tmapAdd s.activeEffectHandles s.nextHandle targetASC,
            nextHandle := s.nextHandle + 1 }
      else
        { s with nextHandle := s.nextHandle + 1 }

/-- First statement of OnOverlap / OnEndOverlap: apply the instant effect
class when its application policy matches the triggering event. -/
def condApplyInstant (w : EffectWorld) (s : AuraEffectActorState) (targetActor : ActorId)
    (trigger : EEffectApplicationPolicy) : AuraEffectActorState :=
  if s.instantEffectApplicationPolicy = trigger
    then ApplyEffectToTarget w s targetActor s.instantGameplayEffectClass else s

/-- Second statement of OnOverlap / OnEndOverlap: apply the duration effect
class when its application policy matches the triggering event. -/
def condApplyDuration (w : EffectWorld) (s : AuraEffectActorState) (targetActor : ActorId)
    (trigger : EEffectApplicationPolicy) : AuraEffectActorState :=
  if s.durationEffectApplicationPolicy = trigger
    then ApplyEffectToTarget w s targetActor s.durationGameplayEffectClass else s

/-- Third statement of OnOverlap / OnEndOverlap: apply the infinite effect
class when its application policy matches the triggering event. -/
def condApplyInfinite (w : EffectWorld) (s : AuraEffectActorState) (targetActor : ActorId)
    (trigger : EEffectApplicationPolicy) : AuraEffectActorState :=
  if s.infiniteEffectApplicationPolicy = trigger
    then ApplyEffectToTarget w s targetActor s.infiniteGameplayEffectClass else s

/-- The three conditional effect applications shared by OnOverlap
(trigger ApplyOnOverlap) and OnEndOverlap (trigger ApplyOnEndOverlap), in
source order: instant, then duration, then infinite. -/
def ApplyPhase (w : EffectWorld) (s : AuraEffectActorState) (targetActor : ActorId)
    (trigger : EEffectApplicationPolicy) : AuraEffectActorState :=
  condApplyInfinite w
    (condApplyDuration w (condApplyInstant w s targetActor trigger) targetActor trigger)
    targetActor trigger

/-- AAuraEffectActor::OnOverlap (AuraEffectActor.cpp:24-38): applies each of
the three configured effects whose application policy is ApplyOnOverlap. -/
def OnOverlap (w : EffectWorld) (s : AuraEffectActorState) (targetActor : ActorId) :
    AuraEffectActorState :=
  ApplyPhase w s targetActor EEffectApplicationPolicy.ApplyOnOverlap

/-- AAuraEffectActor::OnEndOverlap (AuraEffectActor.cpp:40-76): applies each
configured effect whose policy is ApplyOnEndOverlap, then, under the
RemoveOnEndOverlap removal policy and a valid target component, removes from
the target component and from ActiveEffectHandles every entry whose stored
component is that target component. -/
def OnEndOverlap (w : EffectWorld) (s : AuraEffectActorState) (targetActor : ActorId) :
    AuraEffectActorState :=
  if (ApplyPhase w s targetActor EEffectApplicationPolicy.ApplyOnEndOverlap).infiniteEffectRemovalPolicy
      = EEffectRemovalPolicy.RemoveOnEndOverlap then
    match w.ascOf targetActor with
    | none => ApplyPhase w s targetActor EEffectApplicationPolicy.ApplyOnEndOverlap
    | some targetASC =>
      { ApplyPhase w s targetActor EEffectApplicationPolicy.ApplyOnEndOverlap with
          activeEffectHandles :=
            (ApplyPhase w s targetActor
                EEffectApplicationPolicy.ApplyOnEndOverlap).activeEffectHandles.filter
              (fun p => p.2 != targetASC) }
  else ApplyPhase w s targetActor EEffectApplicationPolicy.ApplyOnEndOverlap

/-- Handle freshness: every key of the ActiveEffectHandles map is below the
next engine-allocated handle. -/
def HandlesFresh (s : AuraEffectActorState) : Prop :=
  ∀ e ∈ s.activeEffectHandles, e.1 < s.nextHandle

theorem filter_key_fresh (m : List (EffectHandle × ASCId)) (k : EffectHandle)
    (h : ∀ e ∈ m, e.1 < k) : m.filter (fun p => p.1 != k) = m := by
  induction m with
  | nil => rfl
  | cons x xs ih =>
    have hx : (x.1 != k) = true := by
      simp only [bne_iff_ne, ne_eq]
      exact Nat.ne_of_lt (h x (by simp))
    simp only [List.filter_cons, hx, if_pos]
    rw [ih (fun e he => h e (by simp [he]))]

theorem filter_asc_of_filter_ne (m : List (EffectHandle × ASCId)) (a : ASCId) :
    (m.filter (fun p => p.2 != a)).filter (fun p => p.2 == a) = [] := by
  induction m with
  | nil => rfl
  | cons x xs ih =>
    by_cases hx : x.2 = a
    · simp [List.filter_cons, hx, ih]
    · simp [List.filter_cons, hx, ih]

theorem filter_ne_idem (m : List (EffectHandle × ASCId)) (a : ASCId) :
    (m.filter (fun p => p.2 != a)).filter (fun p => p.2 != a)
      = m.filter (fun p => p.2 != a) := by
  induction m with
  | nil => rfl
  | cons x xs ih =>
    by_cases hx : x.2 = a
    · simp [List.filter_cons, hx, ih]
    · simp [List.filter_cons, hx, ih]

theorem applyEffect_config (w : EffectWorld) (s : AuraEffectActorState) (t : ActorId)
    (cls : Option EffectClassId) :
    (ApplyEffectToTarget w s t cls).instantGameplayEffectClass = s.instantGameplayEffectClass
    ∧ (ApplyEffectToTarget w s t cls).instantEffectApplicationPolicy
        = s.instantEffectApplicationPolicy
    ∧ (ApplyEffectToTarget w s t cls).durationGameplayEffectClass
        = s.durationGameplayEffectClass
    ∧ (ApplyEffectToTarget w s t cls).durationEffectApplicationPolicy
        = s.durationEffectApplicationPolicy
    ∧ (ApplyEffectToTarget w s t cls).infiniteGameplayEffectClass
        = s.infiniteGameplayEffectClass
    ∧ (ApplyEffectToTarget w s t cls).infiniteEffectApplicationPolicy
        = s.infiniteEffectApplicationPolicy
    ∧ (ApplyEffectToTarget w s t cls).infiniteEffectRemovalPolicy
        = s.infiniteEffectRemovalPolicy := by
  match cls with
  | none => simp [ApplyEffectToTarget]
  | some c =>
    match ha : w.ascOf t with
    | none => simp [ApplyEffectToTarget, ha]
    | some asc =>
      by_cases hb : (w.durationPolicyOf c = EGameplayEffectDurationType.Infinite
          ∧ s.infiniteEffectRemovalPolicy = EEffectRemovalPolicy.RemoveOnEndOverlap)
      · simp [ApplyEffectToTarget, ha, hb]
      · simp [ApplyEffectToTarget, ha, hb]

theorem applyEffect_mem (w : EffectWorld) (s : AuraEffectActorState) (t : ActorId)
    (cls : Option EffectClassId) (e : EffectHandle × ASCId)
    (he : e ∈ (ApplyEffectToTarget w s t cls).activeEffectHandles) :
    e ∈ s.activeEffectHandles
      ∨ (∃ c, cls = some c
          ∧ w.durationPolicyOf c = EGameplayEffectDurationType.Infinite
          ∧ s.infiniteEffectRemovalPolicy = EEffectRemovalPolicy.RemoveOnEndOverlap
          ∧ w.ascOf t = some e.2 ∧ e.1 = s.nextHandle) := by
  match cls with
  | none => exact Or.inl he
  | some c =>
    match ha : w.ascOf t with
    | none =>
      simp only [ApplyEffectToTarget, ha] at he
      exact Or.inl he
    | some asc =>
      by_cases hb : (w.durationPolicyOf c = EGameplayEffectDurationType.Infinite
          ∧ s.infiniteEffectRemovalPolicy = EEffectRemovalPolicy.RemoveOnEndOverlap)
      · simp only [ApplyEffectToTarget, ha] at he
        rw [if_pos hb] at he
        simp only [tmapAdd, List.mem_append, List.mem_filter, List.mem_singleton] at he
        rcases he with ⟨hmem, _⟩ | heq
        · exact Or.inl hmem
        · refine Or.inr ⟨c, rfl, hb.1, hb.2, ?_, ?_⟩
          · rw [heq]
          · rw [heq]
      · simp only [ApplyEffectToTarget, ha] at he
        rw [if_neg hb] at he
        exact Or.inl he

theorem applyEffect_fresh (w : EffectWorld) (s : AuraEffectActorState) (t : ActorId)
    (cls : Option EffectClassId) (hf : HandlesFresh s) :
    HandlesFresh (ApplyEffectToTarget w s t cls) := by
  intro e he
  match cls with
  | none => exact hf e he
  | some c =>
    match ha : w.ascOf t with
    | none =>
      simp only [ApplyEffectToTarget, ha] at he ⊢
      exact hf e he
    | some asc =>
      by_cases hb : (w.durationPolicyOf c = EGameplayEffectDurationType.Infinite
          ∧ s.infiniteEffectRemovalPolicy = EEffectRemovalPolicy.RemoveOnEndOverlap)
      · simp only [ApplyEffectToTarget, ha] at he ⊢
        rw [if_pos hb] at he ⊢
        simp only [tmapAdd, List.mem_append, List.mem_filter, List.mem_singleton] at he
        rcases he with ⟨hmem, _⟩ | heq
        · exact Nat.lt_trans (hf e hmem) (Nat.lt_succ_self _)
        · subst heq
          exact Nat.lt_succ_self _
      · simp only [ApplyEffectToTarget, ha] at he ⊢
        rw [if_neg hb] at he ⊢
        exact Nat.lt_trans (hf e he) (Nat.lt_succ_self _)

theorem applyEffect_filter_ne (w : EffectWorld) (s : AuraEffectActorState) (t : ActorId)
    (cls : Option EffectClassId) (a : ASCId) (hasc : w.ascOf t = some a)
    (hf : HandlesFresh s) :
    (ApplyEffectToTarget w s t cls).activeEffectHandles.filter (fun e => e.2 != a)
      = s.activeEffectHandles.filter (fun e => e.2 != a) := by
  match cls with
  | none => rfl
  | some c =>
    simp only [ApplyEffectToTarget, hasc]
    by_cases hb : (w.durationPolicyOf c = EGameplayEffectDurationType.Infinite
        ∧ s.infiniteEffectRemovalPolicy = EEffectRemovalPolicy.RemoveOnEndOverlap)
    · rw [if_pos hb]
      show (tmapAdd s.activeEffectHandles s.nextHandle a).filter (fun e => e.2 != a) = _
      rw [tmapAdd, filter_key_fresh s.activeEffectHandles s.nextHandle hf,
        List.filter_append]
      simp
    · rw [if_neg hb]

theorem condApply_mem (w : EffectWorld) (s : AuraEffectActorState) (t : ActorId)
    (b : Prop) [Decidable b] (cls : Option EffectClassId) (e : EffectHandle × ASCId)
    (he : e ∈ (if b then ApplyEffectToTarget w s t cls else s).activeEffectHandles) :
    e ∈ s.activeEffectHandles
      ∨ (∃ c, cls = some c ∧ w.durationPolicyOf c = EGameplayEffectDurationType.Infinite
          ∧ s.infiniteEffectRemovalPolicy = EEffectRemovalPolicy.RemoveOnEndOverlap
          ∧ w.ascOf t = some e.2) := by
  split at he
  · rcases applyEffect_mem w s t cls e he with h | ⟨c, h1, h2, h3, h4, _⟩
    · exact Or.inl h
    · exact Or.inr ⟨c, h1, h2, h3, h4⟩
  · exact Or.inl he

theorem condApply_config (w : EffectWorld) (s : AuraEffectActorState) (t : ActorId)
    (b : Prop) [Decidable b] (cls : Option EffectClassId) :
    (if b then ApplyEffectToTarget w s t cls else s).instantGameplayEffectClass
        = s.instantGameplayEffectClass
    ∧ (if b then ApplyEffectToTarget w s t cls else s).durationGameplayEffectClass
        = s.durationGameplayEffectClass
    ∧ (if b then ApplyEffectToTarget w s t cls else s).infiniteGameplayEffectClass
        = s.infiniteGameplayEffectClass
    ∧ (if b then ApplyEffectToTarget w s t cls else s).infiniteEffectRemovalPolicy
        = s.infiniteEffectRemovalPolicy := by
  split
  · have h := applyEffect_config w s t cls
    exact ⟨h.1, h.2.2.1, h.2.2.2.2.1, h.2.2.2.2.2.2⟩
  · exact ⟨rfl, rfl, rfl, rfl⟩

theorem condApply_fresh (w : EffectWorld) (s : AuraEffectActorState) (t : ActorId)
    (b : Prop) [Decidable b] (cls : Option EffectClassId) (hf : HandlesFresh s) :
    HandlesFresh (if b then ApplyEffectToTarget w s t cls else s) := by
  split
  · exact applyEffect_fresh w s t cls hf
  · exact hf

theorem condApply_filter_ne (w : EffectWorld) (s : AuraEffectActorState) (t : ActorId)
    (b : Prop) [Decidable b] (cls : Option EffectClassId) (a : ASCId)
    (hasc : w.ascOf t = some a) (hf : HandlesFresh s) :
    (if b then ApplyEffectToTarget w s t cls else s).activeEffectHandles.filter
        (fun e => e.2 != a)
      = s.activeEffectHandles.filter (fun e => e.2 != a) := by
  split
  · exact applyEffect_filter_ne w s t cls a hasc hf
  · rfl

theorem condApplyInstant_config (w : EffectWorld) (s : AuraEffectActorState) (t : ActorId)
    (trigger : EEffectApplicationPolicy) :
    (condApplyInstant w s t trigger).instantGameplayEffectClass = s.instantGameplayEffectClass
    ∧ (condApplyInstant w s t trigger).durationGameplayEffectClass
        = s.durationGameplayEffectClass
    ∧ (condApplyInstant w s t trigger).infiniteGameplayEffectClass
        = s.infiniteGameplayEffectClass
    ∧ (condApplyInstant w s t trigger).infiniteEffectRemovalPolicy
        = s.infiniteEffectRemovalPolicy := by
  unfold condApplyInstant
  exact condApply_config w s t _ _

theorem condApplyDuration_config (w : EffectWorld) (s : AuraEffectActorState) (t : ActorId)
    (trigger : EEffectApplicationPolicy) :
    (condApplyDuration w s t trigger).instantGameplayEffectClass = s.instantGameplayEffectClass
    ∧ (condApplyDuration w s t trigger).durationGameplayEffectClass
        = s.durationGameplayEffectClass
    ∧ (condApplyDuration w s t trigger).infiniteGameplayEffectClass
        = s.infiniteGameplayEffectClass
    ∧ (condApplyDuration w s t trigger).infiniteEffectRemovalPolicy
        = s.infiniteEffectRemovalPolicy := by
  unfold condApplyDuration
  exact condApply_config w s t _ _

theorem condApplyInfinite_config (w : EffectWorld) (s : AuraEffectActorState) (t : ActorId)
    (trigger : EEffectApplicationPolicy) :
    (condApplyInfinite w s t trigger).instantGameplayEffectClass = s.instantGameplayEffectClass
    ∧ (condApplyInfinite w s t trigger).durationGameplayEffectClass
        = s.durationGameplayEffectClass
    ∧ (condApplyInfinite w s t trigger).infiniteGameplayEffectClass
        = s.infiniteGameplayEffectClass
    ∧ (condApplyInfinite w s t trigger).infiniteEffectRemovalPolicy
        = s.infiniteEffectRemovalPolicy := by
  unfold condApplyInfinite
  exact condApply_config w s t _ _

theorem applyPhase_mem (w : EffectWorld) (s : AuraEffectActorState) (t : ActorId)
    (trigger : EEffectApplicationPolicy) (e : EffectHandle × ASCId)
    (he : e ∈ (ApplyPhase w s t trigger).activeEffectHandles) :
    e ∈ s.activeEffectHandles
      ∨ (s.infiniteEffectRemovalPolicy = EEffectRemovalPolicy.RemoveOnEndOverlap
          ∧ ∃ c, (s.instantGameplayEffectClass = some c
              ∨ s.durationGameplayEffectClass = some c
              ∨ s.infiniteGameplayEffectClass = some c)
            ∧ w.durationPolicyOf c = EGameplayEffectDurationType.Infinite
            ∧ w.ascOf t = some e.2) := by
  have hcfg1 := condApplyInstant_config w s t trigger
  have hcfg2 := condApplyDuration_config w (condApplyInstant w s t trigger) t trigger
  rw [ApplyPhase] at he
  rw [condApplyInfinite] at he
  rcases condApply_mem w _ t _ _ e he with h2 | ⟨c, hc1, hc2, hc3, hc4⟩
  · rw [condApplyDuration] at h2
    rcases condApply_mem w _ t _ _ e h2 with h1 | ⟨c, hc1, hc2, hc3, hc4⟩
    · rw [condApplyInstant] at h1
      rcases condApply_mem w _ t _ _ e h1 with h0 | ⟨c, hc1, hc2, hc3, hc4⟩
      · exact Or.inl h0
      · exact Or.inr ⟨hc3, c, Or.inl hc1, hc2, hc4⟩
    · rw [hcfg1.2.1] at hc1
      rw [hcfg1.2.2.2] at hc3
      exact Or.inr ⟨hc3, c, Or.inr (Or.inl hc1), hc2, hc4⟩
  · rw [hcfg2.2.2.1, hcfg1.2.2.1] at hc1
    rw [hcfg2.2.2.2, hcfg1.2.2.2] at hc3
    exact Or.inr ⟨hc3, c, Or.inr (Or.inr hc1), hc2, hc4⟩

theorem applyPhase_fresh (w : EffectWorld) (s : AuraEffectActorState) (t : ActorId)
    (trigger : EEffectApplicationPolicy) (hf : HandlesFresh s) :
    HandlesFresh (ApplyPhase w s t trigger) := by
  rw [ApplyPhase, condApplyInfinite]
  apply condApply_fresh
  rw [condApplyDuration]
  apply condApply_fresh
  rw [condApplyInstant]
  exact condApply_fresh w s t _ _ hf

theorem applyPhase_removal (w : EffectWorld) (s : AuraEffectActorState) (t : ActorId)
    (trigger : EEffectApplicationPolicy) :
    (ApplyPhase w s t trigger).infiniteEffectRemovalPolicy
      = s.infiniteEffectRemovalPolicy := by
  rw [ApplyPhase, (condApplyInfinite_config w _ t trigger).2.2.2,
    (condApplyDuration_config w _ t trigger).2.2.2,
    (condApplyInstant_config w s t trigger).2.2.2]

theorem applyPhase_filter_ne (w : EffectWorld) (s : AuraEffectActorState) (t : ActorId)
    (trigger : EEffectApplicationPolicy) (a : ASCId) (hasc : w.ascOf t = some a)
    (hf : HandlesFresh s) :
    (ApplyPhase w s t trigger).activeEffectHandles.filter (fun e => e.2 != a)
      = s.activeEffectHandles.filter (fun e => e.2 != a) := by
  have h1f : HandlesFresh (condApplyInstant w s t trigger) := by
    rw [condApplyInstant]
    exact condApply_fresh w s t _ _ hf
  have h2f : HandlesFresh (condApplyDuration w (condApplyInstant w s t trigger) t trigger) := by
    rw [condApplyDuration]
    exact condApply_fresh w _ t _ _ h1f
  rw [ApplyPhase, condApplyInfinite]
  rw [condApply_filter_ne w _ t _ _ a hasc h2f]
  rw [condApplyDuration]
  rw [condApply_filter_ne w _ t _ _ a hasc h1f]
  rw [condApplyInstant]
  rw [condApply_filter_ne w s t _ _ a hasc hf]

/-- Claim C8: effect-tracking invariant of AAuraEffectActor.  First,
ApplyEffectToTarget adds an entry to ActiveEffectHandles only for an applied
effect whose duration policy is Infinite while InfiniteEffectRemovalPolicy is
RemoveOnEndOverlap, the entry being the fresh handle paired with the target
component (instant and duration effects are never tracked).  Second, the
overlap handler only ever grows the map with entries of that same provenance.
Third, OnEndOverlap under the RemoveOnEndOverlap policy removes from the map
exactly the entries whose ability-system component is the end-overlapping
target component, leaving every entry of a different component unchanged. -/
theorem effect_actor_handle_tracking (w : EffectWorld) (s : AuraEffectActorState) :
    (∀ t cls e, e ∈ (ApplyEffectToTarget w s t cls).activeEffectHandles →
        e ∈ s.activeEffectHandles
          ∨ (∃ c a, cls = some c ∧ w.ascOf t = some a
              ∧ w.durationPolicyOf c = EGameplayEffectDurationType.Infinite
              ∧ s.infiniteEffectRemovalPolicy = EEffectRemovalPolicy.RemoveOnEndOverlap
              ∧ e = (s.nextHandle, a)))
    ∧ (∀ t e, e ∈ (OnOverlap w s t).activeEffectHandles →
        e ∈ s.activeEffectHandles
          ∨ (s.infiniteEffectRemovalPolicy = EEffectRemovalPolicy.RemoveOnEndOverlap
              ∧ ∃ c, (s.instantGameplayEffectClass = some c
                  ∨ s.durationGameplayEffectClass = some c
                  ∨ s.infiniteGameplayEffectClass = some c)
                ∧ w.durationPolicyOf c = EGameplayEffectDurationType.Infinite
                ∧ w.ascOf t = some e.2))
    ∧ (∀ t a, HandlesFresh s → w.ascOf t = some a →
        s.infiniteEffectRemovalPolicy = EEffectRemovalPolicy.RemoveOnEndOverlap →
        ((OnEndOverlap w s t).activeEffectHandles.filter (fun e => e.2 == a) = []
          ∧ (OnEndOverlap w s t).activeEffectHandles.filter (fun e => e.2 != a)
              = s.activeEffectHandles.filter (fun e => e.2 != a))) := by
  refine ⟨?_, ?_, ?_⟩
  · intro t cls e he
    rcases applyEffect_mem w s t cls e he with h | ⟨c, h1, h2, h3, h4, h5⟩
    · exact Or.inl h
    · refine Or.inr ⟨c, e.2, h1, h4, h2, h3, ?_⟩
      rw [← h5]
  · intro t e he
    exact applyPhase_mem w s t EEffectApplicationPolicy.ApplyOnOverlap e he
  · intro t a hf hasc hpol
    have hrem : (ApplyPhase w s t
        EEffectApplicationPolicy.ApplyOnEndOverlap).infiniteEffectRemovalPolicy
          = EEffectRemovalPolicy.RemoveOnEndOverlap := by
      rw [applyPhase_removal, hpol]
    rw [OnEndOverlap, if_pos hrem]
    simp only [hasc]
    constructor
    · exact filter_asc_of_filter_ne _ a
    · rw [filter_ne_idem]
      exact applyPhase_filter_ne w s t _ a hasc hf

/-- Concrete effect world for the C8 witness: actor 3 owns ability system
component 5; effect class 1 is Infinite, every other class Instant. -/
def effectWorld0 : EffectWorld where
  ascOf := fun t => if t = 3 then some 5 else none
  durationPolicyOf := fun c =>
    if c = 1 then EGameplayEffectDurationType.Infinite
    else EGameplayEffectDurationType.Instant

/-- Concrete effect-actor state for the C8 witness: infinite effect class 1
applied on overlap, removal on end overlap, two tracked entries. -/
def effectActorState0 : AuraEffectActorState where
  instantGameplayEffectClass := some 2
  instantEffectApplicationPolicy := EEffectApplicationPolicy.DoNotApply
  durationGameplayEffectClass := none
  durationEffectApplicationPolicy := EEffectApplicationPolicy.DoNotApply
  infiniteGameplayEffectClass := some 1
  infiniteEffectApplicationPolicy := EEffectApplicationPolicy.ApplyOnOverlap
  infiniteEffectRemovalPolicy := EEffectRemovalPolicy.RemoveOnEndOverlap
  activeEffectHandles := [(0, 5), (1, 7)]
  nextHandle := 2

/-- Claim C8, witness: the tracking theorem applied to the concrete world and
state, discharging the freshness, valid-component and removal-policy
hypotheses there: ending the overlap of actor 3 removes exactly the entry of
component 5 and keeps the entry of component 7. -/
theorem effect_actor_handle_tracking_witness :
    (OnEndOverlap effectWorld0 effectActorState0 3).activeEffectHandles.filter
        (fun e => e.2 == 5) = []
      ∧ (OnEndOverlap effectWorld0 effectActorState0 3).activeEffectHandles.filter
          (fun e => e.2 != 5)
        = effectActorState0.activeEffectHandles.filter (fun e => e.2 != 5) := by
  exact (effect_actor_handle_tracking effectWorld0 effectActorState0).2.2 3 5
    (by intro e he; fin_cases he <;> decide) (by decide) (by decide)

end Aura

namespace Aura

/-- The sixteen gameplay attributes declared in UAuraAttributeSet
(AuraAttributeSet.h:185-454). -/
inductive AuraAttribute where
  | Strength
  | Intelligence
  | Resilience
  | Vigor
  | Health
  | Mana
  | MaxHealth
  | MaxMana
  | Armor
  | ArmorPenetration
  | BlockChance
  | CriticalHitChance
  | CriticalHitDamage
  | CriticalHitResistance
  | HealthRegeneration
  | ManaRegeneration
deriving DecidableEq, Repr, Fintype

/-- Current numeric values of the sixteen attribute fields of a
UAuraAttributeSet instance; engine floats are embedded as rationals. -/
structure AuraAttrValues where
  strength : Rat
  intelligence : Rat
  resilience : Rat
  vigor : Rat
  health : Rat
  mana : Rat
  maxHealth : Rat
  maxMana : Rat
  armor : Rat
  armorPenetration : Rat
  blockChance : Rat
  criticalHitChance : Rat
  criticalHitDamage : Rat
  criticalHitResistance : Rat
  healthRegeneration : Rat
  manaRegeneration : Rat
deriving DecidableEq, Repr

/-- FGameplayAttribute::GetNumericValue on this attribute set: the current
value of the selected attribute field. -/
def attrValue (s : AuraAttrValues) : AuraAttribute → Rat
  | AuraAttribute.Strength => s.strength
  | AuraAttribute.Intelligence => s.intelligence
  | AuraAttribute.Resilience => s.resilience
  | AuraAttribute.Vigor => s.vigor
  | AuraAttribute.Health => s.health
  | AuraAttribute.Mana => s.mana
  | AuraAttribute.MaxHealth => s.maxHealth
  | AuraAttribute.MaxMana => s.maxMana
  | AuraAttribute.Armor => s.armor
  | AuraAttribute.ArmorPenetration => s.armorPenetration
  | AuraAttribute.BlockChance => s.blockChance
  | AuraAttribute.CriticalHitChance => s.criticalHitChance
  | AuraAttribute.CriticalHitDamage => s.criticalHitDamage
  | AuraAttribute.CriticalHitResistance => s.criticalHitResistance
  | AuraAttribute.HealthRegeneration => s.healthRegeneration
  | AuraAttribute.ManaRegeneration => s.manaRegeneration

/-- FMath::Clamp as the engine defines it: below the minimum gives the
minimum, otherwise below the maximum gives the value, otherwise the
maximum. -/
def FMath_Clamp (x lo hi : Rat) : Rat :=
  if x < lo then lo else if x < hi then x else hi

/-- Modelled from the spec: UAuraAttributeSet::PreAttributeChange
(declared AuraAttributeSet.h:151-158; AuraAttributeSet.cpp is not in the
repository sources).  Per the spec and the header documentation, it ensures
that the new value for the Health and Mana attributes is clamped within its
valid range, Health into the interval from 0 to MaxHealth and Mana into the
interval from 0 to MaxMana, and leaves a change of any other attribute
untouched. -/
def PreAttributeChange (s : AuraAttrValues) (changedAttr : AuraAttribute) (newValue : Rat) :
    Rat :=
  if changedAttr = AuraAttribute.Health then FMath_Clamp newValue 0 s.maxHealth
  else if changedAttr = AuraAttribute.Mana then FMath_Clamp newValue 0 s.maxMana
  else newValue

/-- Modelled from the spec: UAuraAttributeSet::PostGameplayEffectExecute
(declared AuraAttributeSet.h:160-166; AuraAttributeSet.cpp is not in the
repository sources).  Per the spec and the header documentation, after a
gameplay effect has executed it clamps the Health and Mana attributes so they
remain within their valid ranges. -/
def PostGameplayEffectExecute (s : AuraAttrValues) : AuraAttrValues :=
  { s with
      health := FMath_Clamp s.health 0 s.maxHealth
      mana := FMath_Clamp s.mana 0 s.maxMana }

theorem clamp_bounds (x lo hi : Rat) (h : lo ≤ hi) :
    lo ≤ FMath_Clamp x lo hi ∧ FMath_Clamp x lo hi ≤ hi := by
  unfold FMath_Clamp
  split_ifs with h1 h2
  · exact ⟨le_refl lo, h⟩
  · constructor <;> linarith
  · exact ⟨h, le_refl hi⟩

/-- Claim C1: every attempted change to Health is clamped by
PreAttributeChange into the range from 0 to MaxHealth and every attempted
change to Mana into the range from 0 to MaxMana, and after
PostGameplayEffectExecute the bounds 0 ≤ Health ≤ MaxHealth and
0 ≤ Mana ≤ MaxMana hold, whenever the max attributes are themselves
non-negative. -/
theorem health_mana_clamped (s : AuraAttrValues) (a : AuraAttribute) (v : Rat)
    (hmh : 0 ≤ s.maxHealth) (hmm : 0 ≤ s.maxMana) :
    (a = AuraAttribute.Health →
        0 ≤ PreAttributeChange s a v ∧ PreAttributeChange s a v ≤ s.maxHealth)
    ∧ (a = AuraAttribute.Mana →
        0 ≤ PreAttributeChange s a v ∧ PreAttributeChange s a v ≤ s.maxMana)
    ∧ (0 ≤ (PostGameplayEffectExecute s).health
        ∧ (PostGameplayEffectExecute s).health ≤ (PostGameplayEffectExecute s).maxHealth
        ∧ 0 ≤ (PostGameplayEffectExecute s).mana
        ∧ (PostGameplayEffectExecute s).mana ≤ (PostGameplayEffectExecute s).maxMana) := by
  refine ⟨?_, ?_, ?_⟩
  · intro ha
    rw [PreAttributeChange, if_pos ha]
    exact clamp_bounds v 0 s.maxHealth hmh
  · intro ha
    rw [PreAttributeChange]
    rw [if_neg (by rw [ha]; exact fun hcontra => AuraAttribute.noConfusion hcontra)]
    rw [if_pos ha]
    exact clamp_bounds v 0 s.maxMana hmm
  · have hh := clamp_bounds s.health 0 s.maxHealth hmh
    have hm := clamp_bounds s.mana 0 s.maxMana hmm
    exact ⟨hh.1, hh.2, hm.1, hm.2⟩

/-- Claim C1, witness: the clamping theorem at a concrete attribute set whose
health exceeds max health and whose mana is negative. -/
theorem health_mana_clamped_witness :
    0 ≤ PreAttributeChange
          ⟨1, 1, 1, 1, 120, -3, 100, 50, 0, 0, 0, 0, 0, 0, 0, 0⟩
          AuraAttribute.Health 120
      ∧ PreAttributeChange
          ⟨1, 1, 1, 1, 120, -3, 100, 50, 0, 0, 0, 0, 0, 0, 0, 0⟩
          AuraAttribute.Health 120
        ≤ (⟨1, 1, 1, 1, 120, -3, 100, 50, 0, 0, 0, 0, 0, 0, 0, 0⟩ :
            AuraAttrValues).maxHealth := by
  exact (health_mana_clamped ⟨1, 1, 1, 1, 120, -3, 100, 50, 0, 0, 0, 0, 0, 0, 0, 0⟩
    AuraAttribute.Health 120 (by norm_num) (by norm_num)).1 rfl

/-- An OnRep_ change-notification handler of UAuraAttributeSet, identified by
the attribute it notifies for (the header declares one per attribute,
ReplicatedUsing = OnRep_Strength and so on, AuraAttributeSet.h:185-454). -/
inductive AuraRepNotify where
  | onRepOf (a : AuraAttribute)
deriving DecidableEq, Repr

/-- Modelled from the spec: UAuraAttributeSet::GetLifetimeReplicatedProps
(declared AuraAttributeSet.h:144-149; AuraAttributeSet.cpp is not in the
repository sources).  Per the spec and the per-field ReplicatedUsing
annotations in the header, it registers each of the sixteen attribute fields
for replication paired with its own OnRep_ notification handler, and nothing
else. -/
def GetLifetimeReplicatedProps : List (AuraAttribute × AuraRepNotify) :=
  [ (AuraAttribute.Strength, AuraRepNotify.onRepOf AuraAttribute.Strength),
    (AuraAttribute.Intelligence, AuraRepNotify.onRepOf AuraAttribute.Intelligence),
    (AuraAttribute.Resilience, AuraRepNotify.onRepOf AuraAttribute.Resilience),
    (AuraAttribute.Vigor, AuraRepNotify.onRepOf AuraAttribute.Vigor),
    (AuraAttribute.Health, AuraRepNotify.onRepOf AuraAttribute.Health),
    (AuraAttribute.Mana, AuraRepNotify.onRepOf AuraAttribute.Mana),
    (AuraAttribute.MaxHealth, AuraRepNotify.onRepOf AuraAttribute.MaxHealth),
    (AuraAttribute.MaxMana, AuraRepNotify.onRepOf AuraAttribute.MaxMana),
    (AuraAttribute.Armor, AuraRepNotify.onRepOf AuraAttribute.Armor),
    (AuraAttribute.ArmorPenetration, AuraRepNotify.onRepOf AuraAttribute.ArmorPenetration),
    (AuraAttribute.BlockChance, AuraRepNotify.onRepOf AuraAttribute.BlockChance),
    (AuraAttribute.CriticalHitChance, AuraRepNotify.onRepOf AuraAttribute.CriticalHitChance),
    (AuraAttribute.CriticalHitDamage, AuraRepNotify.onRepOf AuraAttribute.CriticalHitDamage),
    (AuraAttribute.CriticalHitResistance,
      AuraRepNotify.onRepOf AuraAttribute.CriticalHitResistance),
    (AuraAttribute.HealthRegeneration,
      AuraRepNotify.onRepOf AuraAttribute.HealthRegeneration),
    (AuraAttribute.ManaRegeneration, AuraRepNotify.onRepOf AuraAttribute.ManaRegeneration) ]

/-- Claim C6: GetLifetimeReplicatedProps registers every one of the sixteen
attribute fields declared in UAuraAttributeSet, each exactly once and each
paired with its own OnRep_ notification handler, and registers nothing
else. -/
theorem lifetime_replicated_props_exact :
    (∀ a : AuraAttribute, (a, AuraRepNotify.onRepOf a) ∈ GetLifetimeReplicatedProps)
    ∧ (∀ p ∈ GetLifetimeReplicatedProps, p.2 = AuraRepNotify.onRepOf p.1)
    ∧ (GetLifetimeReplicatedProps.map Prod.fst).Nodup
    ∧ GetLifetimeReplicatedProps.length = 16 := by
  refine ⟨?_, ?_, ?_, rfl⟩
  · intro a
    cases a <;> decide
  · decide
  · decide

/-- The attribute gameplay tags declared in FAuraGameplayTags
(AuraGameplayTags.h:71-191), plus the empty tag FGameplayTag() used as the
default of an info row. -/
inductive AuraAttrTag where
  | EmptyTag
  | Attributes_Primary_Strength
  | Attributes_Primary_Intelligence
  | Attributes_Primary_Resilience
  | Attributes_Primary_Vigor
  | Attributes_Secondary_Armor
  | Attributes_Secondary_ArmorPenetration
  | Attributes_Secondary_BlockChance
  | Attributes_Secondary_CriticalHitChance
  | Attributes_Secondary_CriticalHitDamage
  | Attributes_Secondary_CriticalHitResistance
  | Attributes_Secondary_HealthRegeneration
  | Attributes_Secondary_ManaRegeneration
  | Attributes_Secondary_MaxHealth
  | Attributes_Secondary_MaxMana
deriving DecidableEq, Repr, Fintype

/-- The attribute named by a tag, following the words of the claim: each
primary and secondary attribute tag names exactly the correspondingly named
attribute, and the empty tag names none.  This is the specification side; it
is compared against the TagsToAttributes map below. -/
def attributeNamedByTag : AuraAttrTag → Option AuraAttribute
  | AuraAttrTag.EmptyTag => none
  | AuraAttrTag.Attributes_Primary_Strength => some AuraAttribute.Strength
  | AuraAttrTag.Attributes_Primary_Intelligence => some AuraAttribute.Intelligence
  | AuraAttrTag.Attributes_Primary_Resilience => some AuraAttribute.Resilience
  | AuraAttrTag.Attributes_Primary_Vigor => some AuraAttribute.Vigor
  | AuraAttrTag.Attributes_Secondary_Armor => some AuraAttribute.Armor
  | AuraAttrTag.Attributes_Secondary_ArmorPenetration =>
      some AuraAttribute.ArmorPenetration
  | AuraAttrTag.Attributes_Secondary_BlockChance => some AuraAttribute.BlockChance
  | AuraAttrTag.Attributes_Secondary_CriticalHitChance =>
      some AuraAttribute.CriticalHitChance
  | AuraAttrTag.Attributes_Secondary_CriticalHitDamage =>
      some AuraAttribute.CriticalHitDamage
  | AuraAttrTag.Attributes_Secondary_CriticalHitResistance =>
      some AuraAttribute.CriticalHitResistance
  | AuraAttrTag.Attributes_Secondary_HealthRegeneration =>
      some AuraAttribute.HealthRegeneration
  | AuraAttrTag.Attributes_Secondary_ManaRegeneration =>
      some AuraAttribute.ManaRegeneration
  | AuraAttrTag.Attributes_Secondary_MaxHealth => some AuraAttribute.MaxHealth
  | AuraAttrTag.Attributes_Secondary_MaxMana => some AuraAttribute.MaxMana

/-- Modelled from the spec: the TagsToAttributes map populated by the
UAuraAttributeSet constructor (declared AuraAttributeSet.h:136-177;
AuraAttributeSet.cpp is not in the repository sources).  Per the spec and the
header documentation, the constructor initializes the map with the primary
and secondary attribute tags, each associated with the static getter of the
corresponding attribute (a getter is embedded as the attribute it returns). -/
def TagsToAttributes : List (AuraAttrTag × AuraAttribute) :=
  [ (AuraAttrTag.Attributes_Primary_Strength, AuraAttribute.Strength),
    (AuraAttrTag.Attributes_Primary_Intelligence, AuraAttribute.Intelligence),
    (AuraAttrTag.Attributes_Primary_Resilience, AuraAttribute.Resilience),
    (AuraAttrTag.Attributes_Primary_Vigor, AuraAttribute.Vigor),
    (AuraAttrTag.Attributes_Secondary_Armor, AuraAttribute.Armor),
    (AuraAttrTag.Attributes_Secondary_ArmorPenetration, AuraAttribute.ArmorPenetration),
    (AuraAttrTag.Attributes_Secondary_BlockChance, AuraAttribute.BlockChance),
    (AuraAttrTag.Attributes_Secondary_CriticalHitChance, AuraAttribute.CriticalHitChance),
    (AuraAttrTag.Attributes_Secondary_CriticalHitDamage, AuraAttribute.CriticalHitDamage),
    (AuraAttrTag.Attributes_Secondary_CriticalHitResistance,
      AuraAttribute.CriticalHitResistance),
    (AuraAttrTag.Attributes_Secondary_HealthRegeneration,
      AuraAttribute.HealthRegeneration),
    (AuraAttrTag.Attributes_Secondary_ManaRegeneration, AuraAttribute.ManaRegeneration),
    (AuraAttrTag.Attributes_Secondary_MaxHealth, AuraAttribute.MaxHealth),
    (AuraAttrTag.Attributes_Secondary_MaxMana, AuraAttribute.MaxMana) ]

/-- FAuraAttributeInfo from AttributeInfo.h:15-50: tag, display name,
description and the dynamically filled numeric value. -/
structure FAuraAttributeInfo where
  attributeTag : AuraAttrTag
  attributeName : String
  attributeDescription : String
  attributeValue : Rat
deriving DecidableEq, Repr

/-- Modelled from the spec: UAttributeInfo::FindAttributeInfoForTag (declared
AttributeInfo.h:62-69; its implementation file is not in the repository
sources).  Per the header documentation it searches AttributeInformation for
the entry matching the given tag and returns an empty FAuraAttributeInfo when
no entry matches. -/
def FindAttributeInfoForTag (attributeInformation : List FAuraAttributeInfo)
    (tag : AuraAttrTag) : FAuraAttributeInfo :=
  ((attributeInformation.find? (fun i => i.attributeTag == tag)).getD
    ⟨AuraAttrTag.EmptyTag, "", "", 0⟩)

/-- UAttributeMenuWidgetController::BroadcastAttributeMenuInfo
(AttributeMenuWidgetController.cpp:37-43): look the info row up by tag, set
its AttributeValue to the numeric value of the given attribute on the
attribute set, and broadcast it (the embedding returns the broadcast row). -/
def BroadcastAttributeMenuInfo (attributeInformation : List FAuraAttributeInfo)
    (s : AuraAttrValues) (attributeTag : AuraAttrTag) (attr : AuraAttribute) :
    FAuraAttributeInfo :=
  { FindAttributeInfoForTag attributeInformation attributeTag with
      attributeValue := attrValue s attr }

/-- UAttributeMenuWidgetController::BroadcastInitialValues
(AttributeMenuWidgetController.cpp:25-35): for every pair of the attribute
set TagsToAttributes map, broadcast the menu info for that tag and attribute
getter (the embedding returns the list of broadcast rows in order). -/
def BroadcastInitialValues (attributeInformation : List FAuraAttributeInfo)
    (s : AuraAttrValues) : List FAuraAttributeInfo :=
  TagsToAttributes.map
    (fun p => BroadcastAttributeMenuInfo attributeInformation s p.1 p.2)

/-- Claim C4: the TagsToAttributes map is total and correct over the four
primary and ten secondary attribute tags: a pair of tag and attribute getter
is in the map exactly when the tag names that attribute; and
BroadcastInitialValues broadcasts one info row per map pair, in order, whose
AttributeValue is the current numeric value of the attribute of that pair. -/
theorem tags_to_attributes_total_and_broadcast
    (attributeInformation : List FAuraAttributeInfo) (s : AuraAttrValues) :
    (∀ tag attr, (tag, attr) ∈ TagsToAttributes ↔ attributeNamedByTag tag = some attr)
    ∧ (BroadcastInitialValues attributeInformation s).length = TagsToAttributes.length
    ∧ (∀ i : Nat,
        ((BroadcastInitialValues attributeInformation s)[i]?.map
            (fun info => info.attributeValue))
          = (TagsToAttributes[i]?.map (fun p => attrValue s p.2))) := by
  refine ⟨?_, ?_, ?_⟩
  · decide
  · simp [BroadcastInitialValues]
  · intro i
    cases h : TagsToAttributes[i]? with
    | none => simp [BroadcastInitialValues, h]
    | some p => simp [BroadcastInitialValues, BroadcastAttributeMenuInfo, h]

end Aura

namespace Aura

/-- Controller ids (AController pointers). -/
abbrev ControllerId := Nat

/-- Character ids (ACharacter pointers). -/
abbrev CharacterId := Nat

/-- FGameplayEffectContextHandle as the effect-properties extraction consumes
it: it yields the original instigator ability system component of the
effect (possibly null). -/
structure FGameplayEffectContextHandle where
  originalInstigatorASC : Option ASCId
deriving DecidableEq, Repr

/-- FGameplayEffectModCallbackData as the effect-properties extraction
consumes it: the context handle carried by the executed effect spec, and the
ability system component on which the effect was executed (Data.Target). -/
structure FGameplayEffectModCallbackData where
  effectContextHandle : FGameplayEffectContextHandle
  targetASC : ASCId
deriving DecidableEq, Repr

/-- Engine-side resolution consulted when filling FEffectProperties: the
avatar actor of an ability system component, the controller of an actor, and
the result of casting an actor to ACharacter (none when the cast fails). -/
structure AvatarWorld where
  avatarActorOf : ASCId → Option ActorId
  controllerOf : ActorId → Option ControllerId
  asCharacter : ActorId → Option CharacterId

/-- FEffectProperties from AuraAttributeSet.h:26-121: the context handle plus
the four source-side and four target-side pointers. -/
structure FEffectProperties where
  effectContextHandle : FGameplayEffectContextHandle
  sourceASC : Option ASCId
  sourceAvatarActor : Option ActorId
  sourceController : Option ControllerId
  sourceCharacter : Option CharacterId
  targetASC : Option ASCId
  targetAvatarActor : Option ActorId
  targetController : Option ControllerId
  targetCharacter : Option CharacterId
deriving DecidableEq, Repr

/-- Modelled from the spec: UAuraAttributeSet::SetEffectProperties (declared
AuraAttributeSet.h:508-520; AuraAttributeSet.cpp is not in the repository
sources).  Per the spec and the header documentation, it fills the
FEffectProperties output so that the source-side fields (ability system
component, avatar actor, controller, character) are derived from the effect
context handle carried in the callback data, and the target-side fields are
derived from the ability system component on which the effect was
executed. -/
def SetEffectProperties (w : AvatarWorld) (data : FGameplayEffectModCallbackData) :
    FEffectProperties :=
  let ctx := data.effectContextHandle
  let sourceASC := ctx.originalInstigatorASC
  let sourceAvatar := sourceASC.bind w.avatarActorOf
  let targetAvatar := w.avatarActorOf data.targetASC
  { effectContextHandle := ctx
    sourceASC := sourceASC
    sourceAvatarActor := sourceAvatar
    sourceController := sourceAvatar.bind w.controllerOf
    sourceCharacter := sourceAvatar.bind w.asCharacter
    targetASC := some data.targetASC
    targetAvatarActor := targetAvatar
    targetController := targetAvatar.bind w.controllerOf
    targetCharacter := targetAvatar.bind w.asCharacter }

/-- Claim C2: SetEffectProperties determines the source and target actors of
an executed effect.  The source ability system component is exactly the
original instigator component of the context handle in the callback data and
the target component is exactly the component the effect was executed on;
moreover the four source-side fields are a function of the context handle
alone and the four target-side fields are a function of the executed-on
component alone: two callback data with equal context handles get equal
source fields, and two with equal target components get equal target
fields. -/
theorem setEffectProperties_source_target (w : AvatarWorld)
    (data data2 : FGameplayEffectModCallbackData) :
    ((SetEffectProperties w data).sourceASC
        = data.effectContextHandle.originalInstigatorASC
      ∧ (SetEffectProperties w data).targetASC = some data.targetASC
      ∧ (SetEffectProperties w data).effectContextHandle = data.effectContextHandle)
    ∧ (data.effectContextHandle = data2.effectContextHandle →
        ((SetEffectProperties w data).sourceASC = (SetEffectProperties w data2).sourceASC
          ∧ (SetEffectProperties w data).sourceAvatarActor
              = (SetEffectProperties w data2).sourceAvatarActor
          ∧ (SetEffectProperties w data).sourceController
              = (SetEffectProperties w data2).sourceController
          ∧ (SetEffectProperties w data).sourceCharacter
              = (SetEffectProperties w data2).sourceCharacter))
    ∧ (data.targetASC = data2.targetASC →
        ((SetEffectProperties w data).targetASC = (SetEffectProperties w data2).targetASC
          ∧ (SetEffectProperties w data).targetAvatarActor
              = (SetEffectProperties w data2).targetAvatarActor
          ∧ (SetEffectProperties w data).targetController
              = (SetEffectProperties w data2).targetController
          ∧ (SetEffectProperties w data).targetCharacter
              = (SetEffectProperties w data2).targetCharacter)) := by
  refine ⟨⟨rfl, rfl, rfl⟩, ?_, ?_⟩
  · intro h
    simp [SetEffectProperties, h]
  · intro h
    simp [SetEffectProperties, h]

/-- Claim C2, witness: the source/target determination theorem at a concrete
world and two callback data sharing a context handle but executed on
different target components. -/
theorem setEffectProperties_source_target_witness :
    (SetEffectProperties
        ⟨fun a => if a = 1 then some 10 else some 20, fun _ => some 30, fun _ => none⟩
        ⟨⟨some 1⟩, 2⟩).sourceASC
      = (SetEffectProperties
          ⟨fun a => if a = 1 then some 10 else some 20, fun _ => some 30, fun _ => none⟩
          ⟨⟨some 1⟩, 3⟩).sourceASC := by
  exact ((setEffectProperties_source_target
    ⟨fun a => if a = 1 then some 10 else some 20, fun _ => some 30, fun _ => none⟩
    ⟨⟨some 1⟩, 2⟩ ⟨⟨some 1⟩, 3⟩).2.1 rfl).1

end Aura

